import Mathlib

/-!
# Verification of the bank ledger core

A shallow embedding of the transaction/transfer engine of the bank
infrastructure exercise (`app/services/transaction_service.py`,
`app/services/account_service.py`, `app/models/account.py`,
`app/models/transaction.py`, `app/schemas/transaction.py`,
`app/database.py`), together with proofs of the spec's claims about it.

Modelling conventions:
* UUIDs are abstracted as natural numbers; Python's `sorted` on two UUIDs
  becomes numeric ordering on `Nat`.
* Monetary amounts are Python unbounded integers, embedded as `Int`.
* The database session is a `LedgerState` (accounts, transactions, cards);
  ORM row mutation becomes a functional update of the account list and
  `db.add` / `flush` becomes appending to the transaction list, guarded by
  the storage CHECK constraints declared on the models
  (`amount_cents > 0` on transactions, `cached_balance_cents >= 0` on
  accounts).
* Error propagation across the `get_db` boundary (`app/database.py`):
  a `BankAPIError` is committed (so the declined-audit row persists) while
  any other exception rolls the session back.  Each service function is
  therefore embedded as `LedgerState × Except Err _`: the first component
  is the state as persisted once the request finishes, the second the
  outcome delivered to the caller.
* `uuid.uuid4()` for the transfer pair id is nondeterministic; the
  embedding takes the generated id as an explicit argument, and freshness
  is expressed as a hypothesis where a claim needs it.
-/

namespace Bank

/-- Transaction `type` column: "credit" (money in) or "debit" (money out). -/
inductive TxnType
  | credit
  | debit
deriving DecidableEq, Repr

/-- Transaction `status` column: "pending", "approved" or "declined". -/
inductive TxnStatus
  | pending
  | approved
  | declined
deriving DecidableEq, Repr

/-- A row of the `transactions` table (`app/models/transaction.py`). -/
structure Transaction where
  type : TxnType
  amount_cents : Int
  from_account_id : Option Nat
  to_account_id : Option Nat
  status : TxnStatus
  description : Option String
  transfer_pair_id : Option Nat
  card_id : Option Nat
deriving DecidableEq, Repr

/-- A row of the `accounts` table (`app/models/account.py`), restricted to
the columns the transaction engine reads or writes. -/
structure Account where
  id : Nat
  account_holder_id : Nat
  cached_balance_cents : Int
deriving DecidableEq, Repr

/-- A row of the `cards` table (`app/models/card.py`), restricted to the
columns `create_transaction` consults. -/
structure Card where
  id : Nat
  account_id : Nat
  is_active : Bool
deriving DecidableEq, Repr

/-- The persisted state of the ledger: the three tables the transaction
engine touches. -/
structure LedgerState where
  accounts : List Account
  transactions : List Transaction
  cards : List Card
deriving DecidableEq, Repr

/-- The typed business errors of `app/exceptions.py`, plus the
`fastapi.HTTPException`s raised by card validation, plus the
`IntegrityError` a storage CHECK constraint raises at flush time. -/
inductive Err
  | accountNotFound (account_id : Nat)
  | unauthorizedAccess (detail : String)
  | insufficientFunds (account_id : Nat) (requested_cents : Int) (available_cents : Int)
  | httpError (status_code : Nat) (detail : String)
  | integrityError
deriving DecidableEq, Repr

/-- `SELECT ... WHERE Account.id == account_id` returning
`scalar_one_or_none()`. -/
def findAccount (s : LedgerState) (account_id : Nat) : Option Account :=
  s.accounts.find? (fun a => decide (a.id = account_id))

/-- `SELECT ... WHERE Card.id == card_id` returning `scalar_one_or_none()`. -/
def findCard (s : LedgerState) (card_id : Nat) : Option Card :=
  s.cards.find? (fun c => decide (c.id = card_id))

/-- Writing a new value of `cached_balance_cents` to the account row with
the given id (the flush of an in-place ORM mutation). -/
def setBalance (accounts : List Account) (account_id : Nat) (bal : Int) : List Account :=
  accounts.map fun a =>
    if a.id = account_id then { a with cached_balance_cents := bal } else a

/-- Card validation block of `create_transaction`
(`transaction_service.py` lines 110–139): reject a card on a credit,
a missing card, a card of another account, and an inactive card. -/
def validate_card_usage (s : LedgerState) (account_id : Nat) (txn_type : TxnType)
    (card_id : Option Nat) : Except Err Unit :=
  match card_id with
  | none => Except.ok ()
  | some cid =>
    if txn_type = TxnType.credit then
      Except.error (Err.httpError 400 "Cards cannot be used for deposit (credit) transactions")
    else
      match findCard s cid with
      | none => Except.error (Err.httpError 404 "Card not found")
      | some card =>
        if card.account_id ≠ account_id then
          Except.error (Err.httpError 400 "Card does not belong to this account")
        else if card.is_active = false then
          Except.error (Err.httpError 400 "Card is not active")
        else
          Except.ok ()

/-- `create_transaction` (`transaction_service.py` lines 50–184), composed
with the commit/rollback policy of `get_db` (`app/database.py` lines
70–81): the returned state is the state as persisted after the request.
The flush checks mirror the storage CHECK constraints
`ck_transactions_positive_amount` and `ck_accounts_non_negative_balance`;
a violated constraint rolls the whole request back. -/
def create_transaction (s : LedgerState) (account_id account_holder_id : Nat)
    (txn_type : TxnType) (amount_cents : Int) (description : Option String)
    (card_id : Option Nat) : LedgerState × Except Err Transaction :=
  match findAccount s account_id with
  | none => (s, Except.error (Err.accountNotFound account_id))
  | some account =>
    if account.account_holder_id ≠ account_holder_id then
      (s, Except.error (Err.unauthorizedAccess "You do not have access to this account"))
    else
      match validate_card_usage s account_id txn_type card_id with
      | Except.error e => (s, Except.error e)
      | Except.ok _ =>
        if txn_type = TxnType.debit then
          if account.cached_balance_cents < amount_cents then
            let declined_txn : Transaction :=
              { type := TxnType.debit, amount_cents := amount_cents,
                from_account_id := some account_id, to_account_id := none,
                status := TxnStatus.declined, description := description,
                transfer_pair_id := none, card_id := card_id }
            if 0 < declined_txn.amount_cents then
              ({ s with transactions := s.transactions ++ [declined_txn] },
               Except.error (Err.insufficientFunds account_id amount_cents
                 account.cached_balance_cents))
            else
              (s, Except.error Err.integrityError)
          else
            let new_balance := account.cached_balance_cents - amount_cents
            let txn : Transaction :=
              { type := TxnType.debit, amount_cents := amount_cents,
                from_account_id := some account_id, to_account_id := none,
                status := TxnStatus.approved, description := description,
                transfer_pair_id := none, card_id := card_id }
            if 0 < txn.amount_cents ∧ 0 ≤ new_balance then
              ({ s with accounts := setBalance s.accounts account_id new_balance,
                        transactions := s.transactions ++ [txn] },
               Except.ok txn)
            else
              (s, Except.error Err.integrityError)
        else
          let new_balance := account.cached_balance_cents + amount_cents
          let txn : Transaction :=
            { type := TxnType.credit, amount_cents := amount_cents,
              from_account_id := none, to_account_id := some account_id,
              status := TxnStatus.approved, description := description,
              transfer_pair_id := none, card_id := none }
          if 0 < txn.amount_cents ∧ 0 ≤ new_balance then
            ({ s with accounts := setBalance s.accounts account_id new_balance,
                      transactions := s.transactions ++ [txn] },
             Except.ok txn)
          else
            (s, Except.error Err.integrityError)

/-- Python's `sorted([a, b])` on two ids, as the pair (smaller, larger). -/
def sorted2 (a b : Nat) : Nat × Nat :=
  if a ≤ b then (a, b) else (b, a)

/-- The sequence of account ids on which `create_transfer` issues its
`SELECT ... FOR UPDATE` row locks (`transaction_service.py` lines
224–235), in acquisition order. -/
def transfer_lock_order (from_account_id to_account_id : Nat) : List Nat :=
  let p := sorted2 from_account_id to_account_id
  [p.1, p.2]

/-- `create_transfer` (`transaction_service.py` lines 187–301), composed
with the `get_db` commit/rollback policy as for `create_transaction`.
`transfer_pair_id` is the value produced by `uuid.uuid4()`.
Both locked rows are the same ORM object when the two ids coincide
(SQLAlchemy identity map), so the second in-place mutation reads the
balance left by the first; the `if from_account_id = to_account_id`
branches render exactly that. -/
def create_transfer (s : LedgerState) (from_account_id to_account_id account_holder_id : Nat)
    (amount_cents : Int) (description : Option String) (transfer_pair_id : Nat) :
    LedgerState × Except Err (Transaction × Transaction × Nat) :=
  let p := sorted2 from_account_id to_account_id
  match findAccount s p.1, findAccount s p.2 with
  | none, _ => (s, Except.error (Err.accountNotFound p.1))
  | some _, none => (s, Except.error (Err.accountNotFound p.2))
  | some first_account, some second_account =>
    let source := if first_account.id = from_account_id then first_account else second_account
    let dest := if second_account.id = to_account_id then second_account else first_account
    if source.account_holder_id ≠ account_holder_id then
      (s, Except.error (Err.unauthorizedAccess "You do not have access to the source account"))
    else if source.cached_balance_cents < amount_cents then
      let declined_txn : Transaction :=
        { type := TxnType.debit, amount_cents := amount_cents,
          from_account_id := some from_account_id, to_account_id := none,
          status := TxnStatus.declined, description := description,
          transfer_pair_id := some transfer_pair_id, card_id := none }
      if 0 < declined_txn.amount_cents then
        ({ s with transactions := s.transactions ++ [declined_txn] },
         Except.error (Err.insufficientFunds from_account_id amount_cents
           source.cached_balance_cents))
      else
        (s, Except.error Err.integrityError)
    else
      let source_balance := source.cached_balance_cents - amount_cents
      let dest_balance :=
        (if from_account_id = to_account_id then source_balance
         else dest.cached_balance_cents) + amount_cents
      let debit_txn : Transaction :=
        { type := TxnType.debit, amount_cents := amount_cents,
          from_account_id := some from_account_id, to_account_id := none,
          status := TxnStatus.approved, description := description,
          transfer_pair_id := some transfer_pair_id, card_id := none }
      let credit_txn : Transaction :=
        { type := TxnType.credit, amount_cents := amount_cents,
          from_account_id := none, to_account_id := some to_account_id,
          status := TxnStatus.approved, description := description,
          transfer_pair_id := some transfer_pair_id, card_id := none }
      let final_source_balance :=
        if from_account_id = to_account_id then dest_balance else source_balance
      if 0 < amount_cents ∧ 0 ≤ final_source_balance ∧ 0 ≤ dest_balance then
        ({ s with
             accounts := setBalance (setBalance s.accounts from_account_id source_balance)
               to_account_id dest_balance,
             transactions := s.transactions ++ [debit_txn, credit_txn] },
         Except.ok (debit_txn, credit_txn, transfer_pair_id))
      else
        (s, Except.error Err.integrityError)

/-- Pydantic validation of `TransactionCreateRequest`
(`app/schemas/transaction.py` lines 14–22): `amount_cents` must be
strictly positive. -/
def transactionRequestValid (amount_cents : Int) : Bool :=
  decide (0 < amount_cents)

/-- Pydantic validation of `TransferRequest`
(`app/schemas/transaction.py` lines 40–52): `amount_cents` strictly
positive and `accounts_must_differ`. -/
def transferRequestValid (from_account_id to_account_id : Nat) (amount_cents : Int) : Bool :=
  decide (0 < amount_cents) && decide (from_account_id ≠ to_account_id)

/-- `POST /transfers` (`app/routers/transfers.py`): the request body is
validated by pydantic before the service runs; a validation failure is a
422 with no service call, hence no lock and no mutation.  The middle
component is the trace of row-lock acquisitions performed while handling
the request. -/
def handle_transfer (s : LedgerState) (from_account_id to_account_id account_holder_id : Nat)
    (amount_cents : Int) (description : Option String) (transfer_pair_id : Nat) :
    LedgerState × List Nat × Except Err (Transaction × Transaction × Nat) :=
  if transferRequestValid from_account_id to_account_id amount_cents then
    let r := create_transfer s from_account_id to_account_id account_holder_id
      amount_cents description transfer_pair_id
    (r.1, transfer_lock_order from_account_id to_account_id, r.2)
  else
    (s, [], Except.error (Err.httpError 422 "validation error"))

/-- `_compute_balance_from_transactions` (`account_service.py` lines
161–196): sum of approved credits to the account minus sum of approved
debits from it. -/
def compute_balance_from_transactions (s : LedgerState) (account_id : Nat) : Int :=
  let total_credits :=
    ((s.transactions.filter (fun t =>
        decide (t.to_account_id = some account_id) &&
        decide (t.status = TxnStatus.approved) &&
        decide (t.type = TxnType.credit))).map Transaction.amount_cents).sum
  let total_debits :=
    ((s.transactions.filter (fun t =>
        decide (t.from_account_id = some account_id) &&
        decide (t.status = TxnStatus.approved) &&
        decide (t.type = TxnType.debit))).map Transaction.amount_cents).sum
  total_credits - total_debits

/-- One core operation of a request sequence: a single-account
credit/debit or a transfer, with the arguments of the corresponding
service call. -/
inductive Op
  | txn (account_id account_holder_id : Nat) (txn_type : TxnType) (amount_cents : Int)
      (description : Option String) (card_id : Option Nat)
  | transfer (from_account_id to_account_id account_holder_id : Nat) (amount_cents : Int)
      (description : Option String) (transfer_pair_id : Nat)
deriving DecidableEq, Repr

/-- Persisted state after one core operation. -/
def runOp (s : LedgerState) : Op → LedgerState
  | Op.txn a h ty amt d c => (create_transaction s a h ty amt d c).1
  | Op.transfer f t h amt d p => (create_transfer s f t h amt d p).1

/-- Persisted state after a sequence of core operations. -/
def runOps (s : LedgerState) (ops : List Op) : LedgerState :=
  ops.foldl runOp s

/-- Arguments of one `create_transfer` call. -/
structure TransferArgs where
  from_account_id : Nat
  to_account_id : Nat
  account_holder_id : Nat
  amount_cents : Int
  description : Option String
  transfer_pair_id : Nat
deriving DecidableEq, Repr

/-- Persisted state after a sequence of transfers. -/
def runTransfers (s : LedgerState) (reqs : List TransferArgs) : LedgerState :=
  reqs.foldl (fun st r =>
    (create_transfer st r.from_account_id r.to_account_id r.account_holder_id
      r.amount_cents r.description r.transfer_pair_id).1) s

/-- Every transfer of the sequence, run from the state the previous ones
left, returns `ok`. -/
def runTransfersAllOk (s : LedgerState) : List TransferArgs → Bool
  | [] => true
  | r :: rs =>
    let out := create_transfer s r.from_account_id r.to_account_id r.account_holder_id
      r.amount_cents r.description r.transfer_pair_id
    (match out.2 with
     | Except.ok _ => true
     | Except.error _ => false) && runTransfersAllOk out.1 rs

/-- Primary-key uniqueness of `accounts.id`. -/
def WFAccounts (s : LedgerState) : Prop :=
  (s.accounts.map Account.id).Nodup

/-- Every account's cached balance is non-negative
(`ck_accounts_non_negative_balance`). -/
def NonNeg (s : LedgerState) : Prop :=
  ∀ a ∈ s.accounts, 0 ≤ a.cached_balance_cents

/-- Every account's cached balance equals the balance recomputed from the
approved transactions. -/
def BalInv (s : LedgerState) : Prop :=
  ∀ a ∈ s.accounts, a.cached_balance_cents = compute_balance_from_transactions s a.id

/-- Sum of all accounts' cached balances. -/
def totalBalance (s : LedgerState) : Int :=
  (s.accounts.map Account.cached_balance_cents).sum

end Bank

namespace Bank

instance (s : LedgerState) : Decidable (WFAccounts s) :=
  inferInstanceAs (Decidable ((s.accounts.map Account.id).Nodup))

instance (s : LedgerState) : Decidable (NonNeg s) :=
  List.decidableBAll _ s.accounts

instance (s : LedgerState) : Decidable (BalInv s) :=
  List.decidableBAll _ s.accounts

/-! ## Helper lemmas about the embedded store operations -/

theorem mem_id_of_findAccount {s : LedgerState} {i : Nat} {a : Account}
    (h : findAccount s i = some a) : a ∈ s.accounts ∧ a.id = i := by
  unfold findAccount at h
  refine ⟨List.mem_of_find?_eq_some h, ?_⟩
  have := List.find?_some h
  exact of_decide_eq_true this

theorem findAccount_eq_none {s : LedgerState} {i : Nat}
    (h : findAccount s i = none) : ∀ a ∈ s.accounts, a.id ≠ i := by
  unfold findAccount at h
  intro a ha
  have := List.find?_eq_none.mp h a ha
  simpa using this

/-- With unique account ids, any member with the looked-up id is the
`find?` result. -/
theorem eq_findAccount_of_mem {s : LedgerState} (hwf : WFAccounts s)
    {i : Nat} {acc a : Account} (hfind : findAccount s i = some acc)
    (ha : a ∈ s.accounts) (hid : a.id = i) : a = acc := by
  obtain ⟨hmem, hacc⟩ := mem_id_of_findAccount hfind
  exact List.inj_on_of_nodup_map hwf ha hmem (by rw [hid, hacc])

theorem setBalance_map_id (l : List Account) (i : Nat) (b : Int) :
    (setBalance l i b).map Account.id = l.map Account.id := by
  unfold setBalance
  rw [List.map_map]
  apply List.map_congr_left
  intro a _
  by_cases h : a.id = i <;> simp [h]

theorem find?_setBalance (l : List Account) (i : Nat) (b : Int) (j : Nat) :
    (setBalance l i b).find? (fun a => decide (a.id = j))
      = (l.find? (fun a => decide (a.id = j))).map
          (fun a => if a.id = i then { a with cached_balance_cents := b } else a) := by
  induction l with
  | nil => rfl
  | cons h t ih =>
    have hsb : setBalance (h :: t) i b
        = (if h.id = i then { h with cached_balance_cents := b } else h) :: setBalance t i b := rfl
    have hid : (if h.id = i then { h with cached_balance_cents := b } else h).id = h.id := by
      by_cases hi : h.id = i <;> simp [hi]
    rw [hsb, List.find?_cons, List.find?_cons, hid]
    cases hd : decide (h.id = j) with
    | false => simpa using ih
    | true => simp

theorem findAccount_setBalance (s : LedgerState) (l : List Account) (i : Nat) (b : Int)
    (j : Nat) (hl : s.accounts = setBalance l i b) :
    findAccount s j
      = ((l.find? (fun a => decide (a.id = j))).map
          (fun a => if a.id = i then { a with cached_balance_cents := b } else a)) := by
  unfold findAccount
  rw [hl, find?_setBalance]

theorem mem_setBalance {l : List Account} {i : Nat} {b : Int} {a' : Account}
    (h : a' ∈ setBalance l i b) :
    ∃ a ∈ l, a' = if a.id = i then { a with cached_balance_cents := b } else a := by
  unfold setBalance at h
  obtain ⟨a, ha, rfl⟩ := List.mem_map.mp h
  exact ⟨a, ha, rfl⟩

theorem setBalance_eq_of_none (l : List Account) (i : Nat) (b : Int)
    (h : ∀ a ∈ l, a.id ≠ i) : setBalance l i b = l := by
  unfold setBalance
  apply List.map_congr_left ?_ |>.trans (List.map_id l)
  intro a ha
  simp [h a ha]

theorem sum_setBalance {l : List Account} (hnd : (l.map Account.id).Nodup)
    {i : Nat} {acc : Account}
    (hfind : l.find? (fun a => decide (a.id = i)) = some acc) (b : Int) :
    ((setBalance l i b).map Account.cached_balance_cents).sum
      = (l.map Account.cached_balance_cents).sum - acc.cached_balance_cents + b := by
  induction l with
  | nil => simp at hfind
  | cons h t ih =>
    rw [List.map_cons, List.nodup_cons] at hnd
    have hsb : setBalance (h :: t) i b
        = (if h.id = i then { h with cached_balance_cents := b } else h) :: setBalance t i b := rfl
    by_cases hi : h.id = i
    · rw [List.find?_cons_of_pos _ (by simpa using hi)] at hfind
      cases hfind
      have hnot : ∀ a ∈ t, a.id ≠ i := by
        intro a ha hai
        exact hnd.1 (by
          rw [hi, ← hai]
          exact List.mem_map_of_mem Account.id ha)
      rw [hsb, if_pos hi, setBalance_eq_of_none t i b hnot]
      simp only [List.map_cons, List.sum_cons]
      ring
    · rw [List.find?_cons_of_neg _ (by simpa using hi)] at hfind
      rw [hsb, if_neg hi]
      simp only [List.map_cons, List.sum_cons, ih hnd.2 hfind]
      ring

end Bank

namespace Bank

/-! ## The transaction rows the engine writes -/

/-- The approved credit row written by `create_transaction`. -/
def creditRow (account_id : Nat) (amount_cents : Int) (description : Option String) :
    Transaction :=
  { type := TxnType.credit, amount_cents := amount_cents,
    from_account_id := none, to_account_id := some account_id,
    status := TxnStatus.approved, description := description,
    transfer_pair_id := none, card_id := none }

/-- The approved debit row written by `create_transaction`. -/
def debitRow (account_id : Nat) (amount_cents : Int) (description : Option String)
    (card_id : Option Nat) : Transaction :=
  { type := TxnType.debit, amount_cents := amount_cents,
    from_account_id := some account_id, to_account_id := none,
    status := TxnStatus.approved, description := description,
    transfer_pair_id := none, card_id := card_id }

/-- The declined audit row written by `create_transaction` on insufficient
funds. -/
def declinedDebitRow (account_id : Nat) (amount_cents : Int) (description : Option String)
    (card_id : Option Nat) : Transaction :=
  { type := TxnType.debit, amount_cents := amount_cents,
    from_account_id := some account_id, to_account_id := none,
    status := TxnStatus.declined, description := description,
    transfer_pair_id := none, card_id := card_id }

/-- The approved debit leg written by `create_transfer`. -/
def transferDebitLeg (from_account_id : Nat) (amount_cents : Int)
    (description : Option String) (transfer_pair_id : Nat) : Transaction :=
  { type := TxnType.debit, amount_cents := amount_cents,
    from_account_id := some from_account_id, to_account_id := none,
    status := TxnStatus.approved, description := description,
    transfer_pair_id := some transfer_pair_id, card_id := none }

/-- The approved credit leg written by `create_transfer`. -/
def transferCreditLeg (to_account_id : Nat) (amount_cents : Int)
    (description : Option String) (transfer_pair_id : Nat) : Transaction :=
  { type := TxnType.credit, amount_cents := amount_cents,
    from_account_id := none, to_account_id := some to_account_id,
    status := TxnStatus.approved, description := description,
    transfer_pair_id := some transfer_pair_id, card_id := none }

/-- The declined audit row written by `create_transfer` on insufficient
funds. -/
def transferDeclinedRow (from_account_id : Nat) (amount_cents : Int)
    (description : Option String) (transfer_pair_id : Nat) : Transaction :=
  { type := TxnType.debit, amount_cents := amount_cents,
    from_account_id := some from_account_id, to_account_id := none,
    status := TxnStatus.declined, description := description,
    transfer_pair_id := some transfer_pair_id, card_id := none }

/-! ## Recomputed balance under appends -/

/-- The recomputed balance only reads the transaction table. -/
theorem compute_balance_congr (s s' : LedgerState) (i : Nat)
    (h : s'.transactions = s.transactions) :
    compute_balance_from_transactions s' i = compute_balance_from_transactions s i := by
  unfold compute_balance_from_transactions
  rw [h]

/-- Effect of appending one transaction row on the recomputed balance. -/
theorem compute_balance_append (s s' : LedgerState) (t : Transaction) (i : Nat)
    (h : s'.transactions = s.transactions ++ [t]) :
    compute_balance_from_transactions s' i
      = compute_balance_from_transactions s i
        + (if t.to_account_id = some i ∧ t.status = TxnStatus.approved ∧ t.type = TxnType.credit
           then t.amount_cents else 0)
        - (if t.from_account_id = some i ∧ t.status = TxnStatus.approved ∧ t.type = TxnType.debit
           then t.amount_cents else 0) := by
  unfold compute_balance_from_transactions
  rw [h]
  simp only [List.filter_append, List.map_append, List.sum_append]
  rcases t with ⟨ty, amt, fr, tgt, st, dsc, pid, cid⟩
  cases ty <;> cases st <;>
    by_cases h1 : tgt = some i <;> by_cases h2 : fr = some i <;>
      simp [List.filter_cons, h1, h2] <;> ring

end Bank

namespace Bank

theorem validate_card_usage_error {s : LedgerState} {a : Nat} {ty : TxnType}
    {c : Option Nat} {e : Err}
    (h : validate_card_usage s a ty c = Except.error e) :
    ∃ code d, e = Err.httpError code d := by
  unfold validate_card_usage at h
  cases c with
  | none => cases h
  | some cid =>
    try dsimp only at h
    by_cases hty : ty = TxnType.credit
    · rw [if_pos hty] at h
      cases h
      exact ⟨400, _, rfl⟩
    · rw [if_neg hty] at h
      cases hc : findCard s cid with
      | none =>
        rw [hc] at h
        try dsimp only at h
        cases h
        exact ⟨404, _, rfl⟩
      | some card =>
        rw [hc] at h
        try dsimp only at h
        by_cases h1 : card.account_id ≠ a
        · rw [if_pos h1] at h; cases h; exact ⟨400, _, rfl⟩
        · rw [if_neg h1] at h
          by_cases h2 : card.is_active = false
          · rw [if_pos h2] at h; cases h; exact ⟨400, _, rfl⟩
          · rw [if_neg h2] at h; cases h

/-- Exhaustive case analysis of `create_transaction`: either the call
fails with a non-business error and the state is untouched, or it
declines the debit and appends exactly the declined audit row, or it
approves and appends exactly the approved row while writing the new
balance. -/
theorem create_transaction_cases (s : LedgerState) (a hold : Nat) (ty : TxnType)
    (amt : Int) (dsc : Option String) (c : Option Nat) (s' : LedgerState)
    (out : Except Err Transaction)
    (heq : create_transaction s a hold ty amt dsc c = (s', out)) :
    (s' = s ∧ ∃ e, out = Except.error e ∧ ∀ i q v, e ≠ Err.insufficientFunds i q v)
    ∨ (∃ account, findAccount s a = some account ∧ ty = TxnType.debit ∧
        account.cached_balance_cents < amt ∧ 0 < amt ∧
        s' = { s with transactions := s.transactions ++ [declinedDebitRow a amt dsc c] } ∧
        out = Except.error (Err.insufficientFunds a amt account.cached_balance_cents))
    ∨ (∃ account, findAccount s a = some account ∧ 0 < amt ∧
        ((ty = TxnType.debit ∧ amt ≤ account.cached_balance_cents ∧
          s' = { s with
                   accounts := setBalance s.accounts a (account.cached_balance_cents - amt),
                   transactions := s.transactions ++ [debitRow a amt dsc c] } ∧
          out = Except.ok (debitRow a amt dsc c))
        ∨ (ty = TxnType.credit ∧ 0 ≤ account.cached_balance_cents + amt ∧
          s' = { s with
                   accounts := setBalance s.accounts a (account.cached_balance_cents + amt),
                   transactions := s.transactions ++ [creditRow a amt dsc] } ∧
          out = Except.ok (creditRow a amt dsc)))) := by
  unfold create_transaction at heq
  cases hf : findAccount s a with
  | none =>
    rw [hf] at heq
    try dsimp only at heq
    cases heq
    exact Or.inl ⟨rfl, _, rfl, by simp⟩
  | some account =>
    rw [hf] at heq
    try dsimp only at heq
    by_cases hown : account.account_holder_id ≠ hold
    · rw [if_pos hown] at heq
      cases heq
      exact Or.inl ⟨rfl, _, rfl, by simp⟩
    · rw [if_neg hown] at heq
      cases hv : validate_card_usage s a ty c with
      | error e =>
        rw [hv] at heq
        try dsimp only at heq
        cases heq
        obtain ⟨code, d, rfl⟩ := validate_card_usage_error hv
        exact Or.inl ⟨rfl, _, rfl, by simp⟩
      | ok u =>
        cases u
        rw [hv] at heq
        try dsimp only at heq
        cases ty with
        | debit =>
          rw [if_pos rfl] at heq
          by_cases hbal : account.cached_balance_cents < amt
          · rw [if_pos hbal] at heq
            try dsimp only at heq
            by_cases hamt : 0 < amt
            · rw [if_pos hamt] at heq
              cases heq
              exact Or.inr (Or.inl ⟨account, rfl, rfl, hbal, hamt, rfl, rfl⟩)
            · rw [if_neg hamt] at heq
              cases heq
              exact Or.inl ⟨rfl, _, rfl, by simp⟩
          · rw [if_neg hbal] at heq
            try dsimp only at heq
            by_cases hck : 0 < amt ∧ 0 ≤ account.cached_balance_cents - amt
            · rw [if_pos hck] at heq
              cases heq
              exact Or.inr (Or.inr ⟨account, rfl, hck.1, Or.inl ⟨rfl, by omega, rfl, rfl⟩⟩)
            · rw [if_neg hck] at heq
              cases heq
              exact Or.inl ⟨rfl, _, rfl, by simp⟩
        | credit =>
          rw [if_neg (by simp)] at heq
          try dsimp only at heq
          by_cases hck : 0 < amt ∧ 0 ≤ account.cached_balance_cents + amt
          · rw [if_pos hck] at heq
            cases heq
            exact Or.inr (Or.inr ⟨account, rfl, hck.1, Or.inr ⟨rfl, hck.2, rfl, rfl⟩⟩)
          · rw [if_neg hck] at heq
            cases heq
            exact Or.inl ⟨rfl, _, rfl, by simp⟩

end Bank

namespace Bank

/-- Exhaustive case analysis of `create_transfer`: either the call fails
with a non-business error and the state is untouched, or it declines and
appends exactly the declined audit row, or it approves, writes both
balances and appends exactly the two legs. -/
theorem create_transfer_cases (s : LedgerState) (f t hold : Nat) (amt : Int)
    (dsc : Option String) (pid : Nat) (s' : LedgerState)
    (out : Except Err (Transaction × Transaction × Nat))
    (heq : create_transfer s f t hold amt dsc pid = (s', out)) :
    (s' = s ∧ ∃ e, out = Except.error e ∧ ∀ i q v, e ≠ Err.insufficientFunds i q v)
    ∨ (∃ src, findAccount s f = some src ∧ src.cached_balance_cents < amt ∧ 0 < amt ∧
        s' = { s with transactions := s.transactions ++ [transferDeclinedRow f amt dsc pid] } ∧
        out = Except.error (Err.insufficientFunds f amt src.cached_balance_cents))
    ∨ (∃ src dst, findAccount s f = some src ∧ findAccount s t = some dst ∧
        amt ≤ src.cached_balance_cents ∧ 0 < amt ∧
        (f = t → 0 ≤ src.cached_balance_cents) ∧
        (f ≠ t → 0 ≤ src.cached_balance_cents - amt ∧ 0 ≤ dst.cached_balance_cents + amt) ∧
        s' = { s with
                 accounts := setBalance (setBalance s.accounts f (src.cached_balance_cents - amt)) t
                   ((if f = t then src.cached_balance_cents - amt
                     else dst.cached_balance_cents) + amt),
                 transactions := s.transactions
                   ++ [transferDebitLeg f amt dsc pid, transferCreditLeg t amt dsc pid] } ∧
        out = Except.ok (transferDebitLeg f amt dsc pid, transferCreditLeg t amt dsc pid, pid)) := by
  unfold create_transfer at heq
  by_cases hfteq : f = t
  · subst hfteq
    rw [show sorted2 f f = (f, f) from by simp [sorted2]] at heq
    try dsimp only at heq
    cases hf : findAccount s f with
    | none =>
      rw [hf] at heq
      try dsimp only at heq
      cases heq
      exact Or.inl ⟨rfl, _, rfl, by simp⟩
    | some src =>
      rw [hf] at heq
      try dsimp only at heq
      try simp only [ite_self] at heq
      have hsid : src.id = f := (mem_id_of_findAccount hf).2
      try rw [if_pos hsid, if_pos hsid] at heq
      by_cases hown : src.account_holder_id ≠ hold
      · rw [if_pos hown] at heq
        cases heq
        exact Or.inl ⟨rfl, _, rfl, by simp⟩
      · rw [if_neg hown] at heq
        by_cases hbal : src.cached_balance_cents < amt
        · rw [if_pos hbal] at heq
          try dsimp only at heq
          by_cases hamt : 0 < amt
          · rw [if_pos hamt] at heq
            cases heq
            exact Or.inr (Or.inl ⟨src, rfl, hbal, hamt, rfl, rfl⟩)
          · rw [if_neg hamt] at heq
            cases heq
            exact Or.inl ⟨rfl, _, rfl, by simp⟩
        · rw [if_neg hbal] at heq
          try dsimp only at heq
          try simp only [eq_self_iff_true, if_true] at heq
          by_cases hck : 0 < amt ∧ 0 ≤ src.cached_balance_cents - amt + amt
              ∧ 0 ≤ src.cached_balance_cents - amt + amt
          · rw [if_pos (show 0 < amt ∧ 0 ≤ src.cached_balance_cents - amt + amt
                ∧ 0 ≤ src.cached_balance_cents - amt + amt from hck)] at heq
            cases heq
            refine Or.inr (Or.inr ⟨src, src, rfl, rfl, by omega, hck.1, fun _ => by omega,
              fun hne => absurd rfl hne, ?_, rfl⟩)
            simp [transferDebitLeg, transferCreditLeg]
          · rw [if_neg hck] at heq
            cases heq
            exact Or.inl ⟨rfl, _, rfl, by simp⟩
  · by_cases hft : f ≤ t
    · rw [show sorted2 f t = (f, t) from by simp [sorted2, hft]] at heq
      try dsimp only at heq
      cases hf : findAccount s f with
      | none =>
        rw [hf] at heq
        try dsimp only at heq
        cases heq
        exact Or.inl ⟨rfl, _, rfl, by simp⟩
      | some src =>
        rw [hf] at heq
        try dsimp only at heq
        cases ht : findAccount s t with
        | none =>
          rw [ht] at heq
          try dsimp only at heq
          cases heq
          exact Or.inl ⟨rfl, _, rfl, by simp⟩
        | some dst =>
          rw [ht] at heq
          try dsimp only at heq
          have hsid : src.id = f := (mem_id_of_findAccount hf).2
          have hdid : dst.id = t := (mem_id_of_findAccount ht).2
          have hsrc : (if src.id = f then src else dst) = src := if_pos hsid
          have hdst : (if dst.id = t then dst else src) = dst := if_pos hdid
          try simp only [hsrc, hdst] at heq
          by_cases hown : src.account_holder_id ≠ hold
          · rw [if_pos hown] at heq
            cases heq
            exact Or.inl ⟨rfl, _, rfl, by simp⟩
          · rw [if_neg hown] at heq
            by_cases hbal : src.cached_balance_cents < amt
            · rw [if_pos hbal] at heq
              try dsimp only at heq
              by_cases hamt : 0 < amt
              · rw [if_pos hamt] at heq
                cases heq
                exact Or.inr (Or.inl ⟨src, rfl, hbal, hamt, rfl, rfl⟩)
              · rw [if_neg hamt] at heq
                cases heq
                exact Or.inl ⟨rfl, _, rfl, by simp⟩
            · rw [if_neg hbal] at heq
              try dsimp only at heq
              simp only [if_neg hfteq] at heq
              by_cases hck : 0 < amt ∧ 0 ≤ src.cached_balance_cents - amt
                  ∧ 0 ≤ dst.cached_balance_cents + amt
              · rw [if_pos (show 0 < amt ∧ 0 ≤ src.cached_balance_cents - amt
                    ∧ 0 ≤ dst.cached_balance_cents + amt from hck)] at heq
                cases heq
                refine Or.inr (Or.inr ⟨src, dst, rfl, rfl, by omega, hck.1,
                  fun hh => absurd hh hfteq, fun _ => ⟨hck.2.1, hck.2.2⟩, ?_, rfl⟩)
                simp [hfteq, transferDebitLeg, transferCreditLeg]
              · rw [if_neg hck] at heq
                cases heq
                exact Or.inl ⟨rfl, _, rfl, by simp⟩
    · rw [show sorted2 f t = (t, f) from by simp [sorted2, hft]] at heq
      try dsimp only at heq
      cases ht : findAccount s t with
      | none =>
        rw [ht] at heq
        try dsimp only at heq
        cases heq
        exact Or.inl ⟨rfl, _, rfl, by simp⟩
      | some dst =>
        rw [ht] at heq
        try dsimp only at heq
        cases hf : findAccount s f with
        | none =>
          rw [hf] at heq
          try dsimp only at heq
          cases heq
          exact Or.inl ⟨rfl, _, rfl, by simp⟩
        | some src =>
          rw [hf] at heq
          try dsimp only at heq
          have hsid : src.id = f := (mem_id_of_findAccount hf).2
          have hdid : dst.id = t := (mem_id_of_findAccount ht).2
          have hsrc : (if dst.id = f then dst else src) = src := by
            rw [if_neg]
            rw [hdid]
            exact fun hh => hfteq hh.symm
          have hdst : (if src.id = t then src else dst) = dst := by
            rw [if_neg]
            rw [hsid]
            exact hfteq
          try simp only [hsrc, hdst] at heq
          by_cases hown : src.account_holder_id ≠ hold
          · rw [if_pos hown] at heq
            cases heq
            exact Or.inl ⟨rfl, _, rfl, by simp⟩
          · rw [if_neg hown] at heq
            by_cases hbal : src.cached_balance_cents < amt
            · rw [if_pos hbal] at heq
              try dsimp only at heq
              by_cases hamt : 0 < amt
              · rw [if_pos hamt] at heq
                cases heq
                exact Or.inr (Or.inl ⟨src, rfl, hbal, hamt, rfl, rfl⟩)
              · rw [if_neg hamt] at heq
                cases heq
                exact Or.inl ⟨rfl, _, rfl, by simp⟩
            · rw [if_neg hbal] at heq
              try dsimp only at heq
              simp only [if_neg hfteq] at heq
              by_cases hck : 0 < amt ∧ 0 ≤ src.cached_balance_cents - amt
                  ∧ 0 ≤ dst.cached_balance_cents + amt
              · rw [if_pos (show 0 < amt ∧ 0 ≤ src.cached_balance_cents - amt
                    ∧ 0 ≤ dst.cached_balance_cents + amt from hck)] at heq
                cases heq
                refine Or.inr (Or.inr ⟨src, dst, rfl, rfl, by omega, hck.1,
                  fun hh => absurd hh hfteq, fun _ => ⟨hck.2.1, hck.2.2⟩, ?_, rfl⟩)
                simp [hfteq, transferDebitLeg, transferCreditLeg]
              · rw [if_neg hck] at heq
                cases heq
                exact Or.inl ⟨rfl, _, rfl, by simp⟩

end Bank

namespace Bank

/-- Claim C10: for distinct account ids, `create_transfer` acquires its two
exclusive row locks in the fixed total order given by sorting the ids —
the smaller id is locked first regardless of transfer direction, and the
two opposite-direction lock sequences on a pair coincide, which rules out
the cross-wait deadlock. -/
theorem transfer_locks_sorted (a b : Nat) (hne : a ≠ b) :
    transfer_lock_order a b = [min a b, max a b]
    ∧ transfer_lock_order a b = transfer_lock_order b a
    ∧ (transfer_lock_order a b).head? = some (min a b) := by
  unfold transfer_lock_order sorted2
  by_cases hab : a ≤ b
  · have hba : ¬ b ≤ a := by omega
    simp [hab, hba, Nat.min_def, Nat.max_def]
  · have hba : b ≤ a := by omega
    simp [hab, hba, Nat.min_def, Nat.max_def]

/-- Witness for `transfer_locks_sorted` at the concrete pair (5, 2). -/
theorem transfer_locks_sorted_witness :
    (5 : Nat) ≠ 2
    ∧ (transfer_lock_order 5 2 = [min 5 2, max 5 2]
       ∧ transfer_lock_order 5 2 = transfer_lock_order 2 5
       ∧ (transfer_lock_order 5 2).head? = some (min 5 2)) :=
  ⟨by decide, transfer_locks_sorted 5 2 (by decide)⟩

/-- Claim C9: a transfer request whose source id equals its destination id
is rejected by the schema validator (`accounts_must_differ`) before the
service is invoked: the persisted state is unchanged, no row lock is
acquired, and no transaction row is created. -/
theorem same_account_transfer_rejected (s : LedgerState) (f t hold : Nat) (amt : Int)
    (dsc : Option String) (pid : Nat) (heq : f = t) :
    handle_transfer s f t hold amt dsc pid
      = (s, [], Except.error (Err.httpError 422 "validation error")) := by
  have hv : transferRequestValid f t amt = false := by
    simp [transferRequestValid, heq]
  simp [handle_transfer, hv]

/-- Witness for `same_account_transfer_rejected` on a one-account ledger. -/
theorem same_account_transfer_rejected_witness :
    (1 : Nat) = 1
    ∧ handle_transfer ⟨[⟨1, 7, 5000⟩], [], []⟩ 1 1 7 100 none 9
        = (⟨[⟨1, 7, 5000⟩], [], []⟩, [], Except.error (Err.httpError 422 "validation error")) :=
  ⟨rfl, same_account_transfer_rejected ⟨[⟨1, 7, 5000⟩], [], []⟩ 1 1 7 100 none 9 rfl⟩

/-- Claim C8: a `create_transaction` call with a non-positive amount is a
rejected contract violation, not a business decline: the request schema
refuses it, and even a direct service call against a ledger with
non-negative balances leaves the persisted state exactly unchanged (no
balance mutation, no approved or declined row) and surfaces an error that
is never `InsufficientFunds`. -/
theorem nonpositive_amount_rejected (s : LedgerState) (a hold : Nat) (ty : TxnType)
    (amt : Int) (dsc : Option String) (c : Option Nat)
    (hnn : NonNeg s) (hamt : amt ≤ 0) :
    transactionRequestValid amt = false
    ∧ (create_transaction s a hold ty amt dsc c).1 = s
    ∧ (∃ e, (create_transaction s a hold ty amt dsc c).2 = Except.error e)
    ∧ ∀ i q v, (create_transaction s a hold ty amt dsc c).2
        ≠ Except.error (Err.insufficientFunds i q v) := by
  have hv : transactionRequestValid amt = false := by
    simp [transactionRequestValid]
    omega
  rcases hsplit : create_transaction s a hold ty amt dsc c with ⟨s', out⟩
  rcases create_transaction_cases s a hold ty amt dsc c s' out hsplit with h | h | h
  · obtain ⟨hs, e, hout, hne⟩ := h
    refine ⟨hv, by simp [hsplit, hs], ⟨e, by simp [hsplit, hout]⟩, ?_⟩
    intro i q v hcon
    dsimp only at hcon
    rw [hout] at hcon
    cases hcon
    exact hne i q v rfl
  · obtain ⟨account, hfind, -, hlt, -⟩ := h
    have hmem := (mem_id_of_findAccount hfind).1
    have := hnn account hmem
    omega
  · obtain ⟨account, -, hpos, -⟩ := h
    omega

/-- Witness for `nonpositive_amount_rejected` at amount 0. -/
theorem nonpositive_amount_rejected_witness :
    NonNeg ⟨[⟨1, 7, 5000⟩], [], []⟩ ∧ (0 : Int) ≤ 0
    ∧ (transactionRequestValid 0 = false
       ∧ (create_transaction ⟨[⟨1, 7, 5000⟩], [], []⟩ 1 7 TxnType.debit 0 none none).1
           = ⟨[⟨1, 7, 5000⟩], [], []⟩
       ∧ (∃ e, (create_transaction ⟨[⟨1, 7, 5000⟩], [], []⟩ 1 7 TxnType.debit 0 none none).2
           = Except.error e)
       ∧ ∀ i q v, (create_transaction ⟨[⟨1, 7, 5000⟩], [], []⟩ 1 7 TxnType.debit 0 none none).2
           ≠ Except.error (Err.insufficientFunds i q v)) :=
  ⟨by decide, by decide,
    nonpositive_amount_rejected ⟨[⟨1, 7, 5000⟩], [], []⟩ 1 7 TxnType.debit 0 none none
      (by decide) (by decide)⟩

end Bank

namespace Bank

/-- Claim C1: on an existing, owned account, with a positive amount and an
instrument argument that passes card validation, `create_transaction`
approves every credit and writes balance `current + amount`; it approves a
debit exactly when `current >= amount`, writing `current - amount`, and on
`current < amount` leaves every balance untouched; in each of the three
outcomes exactly one new Transaction row is appended and the cached
balance is rewritten precisely when that row is approved. -/
theorem create_transaction_spec (s : LedgerState) (a hold : Nat) (ty : TxnType)
    (amt : Int) (dsc : Option String) (c : Option Nat) (account : Account)
    (hfind : findAccount s a = some account)
    (hown : account.account_holder_id = hold)
    (hcard : validate_card_usage s a ty c = Except.ok ())
    (hamt : 0 < amt) (hnn : 0 ≤ account.cached_balance_cents) :
    (ty = TxnType.credit →
      create_transaction s a hold ty amt dsc c
        = ({ s with
               accounts := setBalance s.accounts a (account.cached_balance_cents + amt),
               transactions := s.transactions ++ [creditRow a amt dsc] },
           Except.ok (creditRow a amt dsc)))
    ∧ (ty = TxnType.debit → amt ≤ account.cached_balance_cents →
      create_transaction s a hold ty amt dsc c
        = ({ s with
               accounts := setBalance s.accounts a (account.cached_balance_cents - amt),
               transactions := s.transactions ++ [debitRow a amt dsc c] },
           Except.ok (debitRow a amt dsc c)))
    ∧ (ty = TxnType.debit → account.cached_balance_cents < amt →
      create_transaction s a hold ty amt dsc c
        = ({ s with transactions := s.transactions ++ [declinedDebitRow a amt dsc c] },
           Except.error (Err.insufficientFunds a amt account.cached_balance_cents))) := by
  refine ⟨?_, ?_, ?_⟩
  · intro hty
    subst hty
    unfold create_transaction
    rw [hfind]
    try dsimp only
    rw [if_neg (by simp [hown]), hcard]
    try dsimp only
    rw [if_neg (by simp)]
    try dsimp only
    rw [if_pos (show 0 < amt ∧ 0 ≤ account.cached_balance_cents + amt from ⟨hamt, by omega⟩)]
    rfl
  · intro hty hbal
    subst hty
    unfold create_transaction
    rw [hfind]
    try dsimp only
    rw [if_neg (by simp [hown]), hcard]
    try dsimp only
    rw [if_pos rfl, if_neg (not_lt.mpr hbal)]
    try dsimp only
    rw [if_pos (show 0 < amt ∧ 0 ≤ account.cached_balance_cents - amt from ⟨hamt, by omega⟩)]
    rfl
  · intro hty hlt
    subst hty
    unfold create_transaction
    rw [hfind]
    try dsimp only
    rw [if_neg (by simp [hown]), hcard]
    try dsimp only
    rw [if_pos rfl, if_pos hlt]
    try dsimp only
    rw [if_pos hamt]
    rfl

/-- Witness for `create_transaction_spec`: crediting 100 to a 5000-cent
account writes 5100 and appends the one approved credit row. -/
theorem create_transaction_spec_witness :
    create_transaction ⟨[⟨1, 7, 5000⟩], [], []⟩ 1 7 TxnType.credit 100 none none
      = (⟨[⟨1, 7, 5100⟩], [creditRow 1 100 none], []⟩, Except.ok (creditRow 1 100 none)) := by
  have h := (create_transaction_spec ⟨[⟨1, 7, 5000⟩], [], []⟩ 1 7 TxnType.credit 100 none none
    ⟨1, 7, 5000⟩ rfl rfl rfl (by decide) (by decide)).1 rfl
  rw [h]
  rfl

end Bank

namespace Bank

/-- Claim C2: a transfer between two distinct existing accounts, where the
requester owns the source and the source balance covers the positive
amount, debits the source by the amount, credits the destination by the
amount, and appends exactly two approved rows sharing the freshly
generated transfer-pair id — a debit leg carrying only the source id and
a credit leg carrying only the destination id, with the same amount and
description; no earlier row carries that pair id. -/
theorem create_transfer_spec (s : LedgerState) (f t hold : Nat) (amt : Int)
    (dsc : Option String) (pid : Nat) (src dst : Account)
    (hne : f ≠ t)
    (hf : findAccount s f = some src) (ht : findAccount s t = some dst)
    (hown : src.account_holder_id = hold)
    (hbal : amt ≤ src.cached_balance_cents) (hamt : 0 < amt)
    (hnnd : 0 ≤ dst.cached_balance_cents)
    (hfresh : ∀ txn ∈ s.transactions, txn.transfer_pair_id ≠ some pid) :
    create_transfer s f t hold amt dsc pid
      = ({ s with
             accounts := setBalance (setBalance s.accounts f (src.cached_balance_cents - amt))
               t (dst.cached_balance_cents + amt),
             transactions := s.transactions
               ++ [transferDebitLeg f amt dsc pid, transferCreditLeg t amt dsc pid] },
         Except.ok (transferDebitLeg f amt dsc pid, transferCreditLeg t amt dsc pid, pid))
    ∧ findAccount (create_transfer s f t hold amt dsc pid).1 f
        = some { src with cached_balance_cents := src.cached_balance_cents - amt }
    ∧ findAccount (create_transfer s f t hold amt dsc pid).1 t
        = some { dst with cached_balance_cents := dst.cached_balance_cents + amt }
    ∧ (∀ txn ∈ s.transactions, txn.transfer_pair_id ≠ some pid)
    ∧ (transferDebitLeg f amt dsc pid).from_account_id = some f
    ∧ (transferDebitLeg f amt dsc pid).to_account_id = none
    ∧ (transferCreditLeg t amt dsc pid).from_account_id = none
    ∧ (transferCreditLeg t amt dsc pid).to_account_id = some t
    ∧ (transferDebitLeg f amt dsc pid).status = TxnStatus.approved
    ∧ (transferCreditLeg t amt dsc pid).status = TxnStatus.approved
    ∧ (transferDebitLeg f amt dsc pid).transfer_pair_id = some pid
    ∧ (transferCreditLeg t amt dsc pid).transfer_pair_id = some pid
    ∧ (transferDebitLeg f amt dsc pid).amount_cents = amt
    ∧ (transferCreditLeg t amt dsc pid).amount_cents = amt
    ∧ (transferDebitLeg f amt dsc pid).description = dsc
    ∧ (transferCreditLeg t amt dsc pid).description = dsc := by
  have hsid : src.id = f := (mem_id_of_findAccount hf).2
  have hdid : dst.id = t := (mem_id_of_findAccount ht).2
  have hmain : create_transfer s f t hold amt dsc pid
      = ({ s with
             accounts := setBalance (setBalance s.accounts f (src.cached_balance_cents - amt))
               t (dst.cached_balance_cents + amt),
             transactions := s.transactions
               ++ [transferDebitLeg f amt dsc pid, transferCreditLeg t amt dsc pid] },
         Except.ok (transferDebitLeg f amt dsc pid, transferCreditLeg t amt dsc pid, pid)) := by
    unfold create_transfer
    by_cases hft : f ≤ t
    · rw [show sorted2 f t = (f, t) from by simp [sorted2, hft]]
      try dsimp only
      rw [hf, ht]
      try dsimp only
      have hsrc : (if src.id = f then src else dst) = src := if_pos hsid
      have hdst : (if dst.id = t then dst else src) = dst := if_pos hdid
      try simp only [hsrc, hdst]
      rw [if_neg (by simp [hown]), if_neg (not_lt.mpr hbal)]
      try dsimp only
      simp only [if_neg hne]
      rw [if_pos (show 0 < amt ∧ 0 ≤ src.cached_balance_cents - amt
          ∧ 0 ≤ dst.cached_balance_cents + amt from ⟨hamt, by omega, by omega⟩)]
      rfl
    · rw [show sorted2 f t = (t, f) from by simp [sorted2, hft]]
      try dsimp only
      rw [ht, hf]
      try dsimp only
      have hsrc : (if dst.id = f then dst else src) = src := by
        rw [if_neg]
        rw [hdid]
        exact fun hh => hne hh.symm
      have hdst : (if src.id = t then src else dst) = dst := by
        rw [if_neg]
        rw [hsid]
        exact hne
      try simp only [hsrc, hdst]
      rw [if_neg (by simp [hown]), if_neg (not_lt.mpr hbal)]
      try dsimp only
      simp only [if_neg hne]
      rw [if_pos (show 0 < amt ∧ 0 ≤ src.cached_balance_cents - amt
          ∧ 0 ≤ dst.cached_balance_cents + amt from ⟨hamt, by omega, by omega⟩)]
      rfl
  refine ⟨hmain, ?_, ?_, hfresh, rfl, rfl, rfl, rfl, rfl, rfl, rfl, rfl, rfl, rfl, rfl, rfl⟩
  · rw [hmain]
    unfold findAccount at hf ⊢
    try dsimp only
    rw [find?_setBalance, find?_setBalance, hf]
    try simp only [Option.map_some, Option.map_some']
    try dsimp only
    rw [if_pos hsid]
    try dsimp only
    rw [if_neg (by rw [hsid]; exact hne)]
  · rw [hmain]
    unfold findAccount at ht ⊢
    try dsimp only
    rw [find?_setBalance, find?_setBalance, ht]
    try simp only [Option.map_some, Option.map_some']
    try dsimp only
    have h1 : (if dst.id = f
          then { dst with cached_balance_cents := src.cached_balance_cents - amt } else dst)
        = dst :=
      if_neg (by rw [hdid]; exact fun hh => hne hh.symm)
    rw [h1, if_pos hdid]

/-- Witness for `create_transfer_spec`: the spec's Scenario 3 — transfer
5000 from a 10000-cent account to a 0-cent account. -/
theorem create_transfer_spec_witness :
    create_transfer ⟨[⟨1, 7, 10000⟩, ⟨2, 8, 0⟩], [], []⟩ 1 2 7 5000 none 99
      = (⟨[⟨1, 7, 5000⟩, ⟨2, 8, 5000⟩],
          [transferDebitLeg 1 5000 none 99, transferCreditLeg 2 5000 none 99], []⟩,
         Except.ok (transferDebitLeg 1 5000 none 99, transferCreditLeg 2 5000 none 99, 99)) := by
  have h := (create_transfer_spec ⟨[⟨1, 7, 10000⟩, ⟨2, 8, 0⟩], [], []⟩ 1 2 7 5000 none 99
    ⟨1, 7, 10000⟩ ⟨2, 8, 0⟩ (by decide) rfl rfl rfl (by decide) (by decide) (by decide)
    (by intro txn htxn hpid; simp at htxn)).1
  rw [h]
  rfl

end Bank

namespace Bank

/-- Claim C3: whenever `create_transaction` or `create_transfer` declines
a debit for insufficient funds, the persisted state (committed by
`get_db` before the error reaches the caller) gains exactly one declined
Transaction row — `from_account_id` set to the debited/source account,
the requested amount, and for transfers the transfer-pair id attached —
and the `InsufficientFunds` error carries both the requested amount and
the available balance. -/
theorem declined_audit_row_persisted :
    (∀ (s : LedgerState) (a hold : Nat) (amt : Int) (dsc : Option String) (c : Option Nat)
        (account : Account),
      findAccount s a = some account →
      account.account_holder_id = hold →
      validate_card_usage s a TxnType.debit c = Except.ok () →
      0 < amt → account.cached_balance_cents < amt →
      create_transaction s a hold TxnType.debit amt dsc c
        = ({ s with transactions := s.transactions ++ [declinedDebitRow a amt dsc c] },
           Except.error (Err.insufficientFunds a amt account.cached_balance_cents)))
    ∧ (∀ (s : LedgerState) (f t hold : Nat) (amt : Int) (dsc : Option String) (pid : Nat)
        (src dst : Account),
      f ≠ t →
      findAccount s f = some src → findAccount s t = some dst →
      src.account_holder_id = hold →
      0 < amt → src.cached_balance_cents < amt →
      create_transfer s f t hold amt dsc pid
        = ({ s with transactions := s.transactions ++ [transferDeclinedRow f amt dsc pid] },
           Except.error (Err.insufficientFunds f amt src.cached_balance_cents))) := by
  constructor
  · intro s a hold amt dsc c account hfind hown hcard hamt hlt
    unfold create_transaction
    rw [hfind]
    try dsimp only
    rw [if_neg (by simp [hown]), hcard]
    try dsimp only
    rw [if_pos rfl, if_pos hlt]
    try dsimp only
    rw [if_pos hamt]
    rfl
  · intro s f t hold amt dsc pid src dst hne hf ht hown hamt hlt
    have hsid : src.id = f := (mem_id_of_findAccount hf).2
    have hdid : dst.id = t := (mem_id_of_findAccount ht).2
    unfold create_transfer
    by_cases hft : f ≤ t
    · rw [show sorted2 f t = (f, t) from by simp [sorted2, hft]]
      try dsimp only
      rw [hf, ht]
      try dsimp only
      have hsrc : (if src.id = f then src else dst) = src := if_pos hsid
      have hdst : (if dst.id = t then dst else src) = dst := if_pos hdid
      try simp only [hsrc, hdst]
      rw [if_neg (by simp [hown]), if_pos hlt]
      try dsimp only
      rw [if_pos hamt]
      rfl
    · rw [show sorted2 f t = (t, f) from by simp [sorted2, hft]]
      try dsimp only
      rw [ht, hf]
      try dsimp only
      have hsrc : (if dst.id = f then dst else src) = src :=
        if_neg (by rw [hdid]; exact fun hh => hne hh.symm)
      have hdst : (if src.id = t then src else dst) = dst :=
        if_neg (by rw [hsid]; exact hne)
      try simp only [hsrc, hdst]
      rw [if_neg (by simp [hown]), if_pos hlt]
      try dsimp only
      rw [if_pos hamt]
      rfl

/-- Witness for `declined_audit_row_persisted`: the spec's Scenario 2 on
the single-account path, and its transfer analogue. -/
theorem declined_audit_row_persisted_witness :
    create_transaction ⟨[⟨1, 7, 5000⟩], [], []⟩ 1 7 TxnType.debit 10000 none none
      = (⟨[⟨1, 7, 5000⟩], [declinedDebitRow 1 10000 none none], []⟩,
         Except.error (Err.insufficientFunds 1 10000 5000))
    ∧ create_transfer ⟨[⟨1, 7, 5000⟩, ⟨2, 8, 0⟩], [], []⟩ 1 2 7 10000 none 99
      = (⟨[⟨1, 7, 5000⟩, ⟨2, 8, 0⟩], [transferDeclinedRow 1 10000 none 99], []⟩,
         Except.error (Err.insufficientFunds 1 10000 5000)) := by
  constructor
  · have h := declined_audit_row_persisted.1 ⟨[⟨1, 7, 5000⟩], [], []⟩ 1 7 10000 none none
      ⟨1, 7, 5000⟩ rfl rfl rfl (by decide) (by decide)
    rw [h]
    rfl
  · have h := declined_audit_row_persisted.2 ⟨[⟨1, 7, 5000⟩, ⟨2, 8, 0⟩], [], []⟩ 1 2 7 10000
      none 99 ⟨1, 7, 5000⟩ ⟨2, 8, 0⟩ (by decide) rfl rfl rfl (by decide) (by decide)
    rw [h]
    rfl

end Bank

namespace Bank

/-- Claim C4: whenever `create_transaction` or `create_transfer` raises an
error, the persisted state is exactly the pre-call state for every error
other than `InsufficientFunds` (account not found, unauthorized, invalid
instrument use, integrity violation), and for `InsufficientFunds` the only
change is the single appended declined audit row — balances untouched, so
a failed transfer never leaves a lone approved leg or a partial balance
change. -/
theorem error_leaves_state_unchanged :
    (∀ (s : LedgerState) (a hold : Nat) (ty : TxnType) (amt : Int) (dsc : Option String)
        (c : Option Nat) (s' : LedgerState) (out : Except Err Transaction) (e : Err),
      create_transaction s a hold ty amt dsc c = (s', out) → out = Except.error e →
      ((∀ i q v, e ≠ Err.insufficientFunds i q v) → s' = s)
      ∧ (∀ i q v, e = Err.insufficientFunds i q v →
          s'.accounts = s.accounts
          ∧ ∃ d, s'.transactions = s.transactions ++ [d] ∧ d.status = TxnStatus.declined))
    ∧ (∀ (s : LedgerState) (f t hold : Nat) (amt : Int) (dsc : Option String) (pid : Nat)
        (s' : LedgerState) (out : Except Err (Transaction × Transaction × Nat)) (e : Err),
      create_transfer s f t hold amt dsc pid = (s', out) → out = Except.error e →
      ((∀ i q v, e ≠ Err.insufficientFunds i q v) → s' = s)
      ∧ (∀ i q v, e = Err.insufficientFunds i q v →
          s'.accounts = s.accounts
          ∧ ∃ d, s'.transactions = s.transactions ++ [d] ∧ d.status = TxnStatus.declined)) := by
  constructor
  · intro s a hold ty amt dsc c s' out e heq hout
    rcases create_transaction_cases s a hold ty amt dsc c s' out heq with h | h | h
    · obtain ⟨hs, e', hout', hne'⟩ := h
      have he : Except.error (α := Transaction) e' = Except.error e := hout'.symm.trans hout
      cases he
      exact ⟨fun _ => hs, fun i q v hev => absurd hev (hne' i q v)⟩
    · obtain ⟨account, hfind, hty, hlt, hamt, hs, hout'⟩ := h
      refine ⟨?_, ?_⟩
      · intro hne'
        have he : Except.error (α := Transaction)
            (Err.insufficientFunds a amt account.cached_balance_cents) = Except.error e :=
          hout'.symm.trans hout
        cases he
        exact absurd rfl (hne' a amt account.cached_balance_cents)
      · intro i q v _
        rw [hs]
        exact ⟨rfl, declinedDebitRow a amt dsc c, rfl, rfl⟩
    · obtain ⟨account, hfind, hamt, h3⟩ := h
      rcases h3 with ⟨-, -, hs, hout'⟩ | ⟨-, -, hs, hout'⟩ <;>
        exact absurd (hout'.symm.trans hout) (by simp)
  · intro s f t hold amt dsc pid s' out e heq hout
    rcases create_transfer_cases s f t hold amt dsc pid s' out heq with h | h | h
    · obtain ⟨hs, e', hout', hne'⟩ := h
      have he : Except.error (α := Transaction × Transaction × Nat) e' = Except.error e :=
        hout'.symm.trans hout
      cases he
      exact ⟨fun _ => hs, fun i q v hev => absurd hev (hne' i q v)⟩
    · obtain ⟨src, hfind, hlt, hamt, hs, hout'⟩ := h
      refine ⟨?_, ?_⟩
      · intro hne'
        have he : Except.error (α := Transaction × Transaction × Nat)
            (Err.insufficientFunds f amt src.cached_balance_cents) = Except.error e :=
          hout'.symm.trans hout
        cases he
        exact absurd rfl (hne' f amt src.cached_balance_cents)
      · intro i q v _
        rw [hs]
        exact ⟨rfl, transferDeclinedRow f amt dsc pid, rfl, rfl⟩
    · obtain ⟨src, dst, -, -, -, -, -, -, hs, hout'⟩ := h
      exact absurd (hout'.symm.trans hout) (by simp)

/-- Witness for `error_leaves_state_unchanged`: a call against an empty
ledger fails with AccountNotFound and the state is unchanged. -/
theorem error_leaves_state_unchanged_witness :
    ((∀ i q v, Err.accountNotFound 1 ≠ Err.insufficientFunds i q v)
      → (⟨[], [], []⟩ : LedgerState) = ⟨[], [], []⟩)
    ∧ (∀ i q v, Err.accountNotFound 1 = Err.insufficientFunds i q v →
        (⟨[], [], []⟩ : LedgerState).accounts = (⟨[], [], []⟩ : LedgerState).accounts
        ∧ ∃ d, (⟨[], [], []⟩ : LedgerState).transactions
            = (⟨[], [], []⟩ : LedgerState).transactions ++ [d]
          ∧ d.status = TxnStatus.declined) :=
  error_leaves_state_unchanged.1 ⟨[], [], []⟩ 1 7 TxnType.credit 100 none none
    ⟨[], [], []⟩ (Except.error (Err.accountNotFound 1)) (Err.accountNotFound 1) rfl rfl

end Bank

namespace Bank

/-- Non-negativity is preserved by one core operation. -/
theorem nonNeg_runOp (s : LedgerState) (op : Op) (hnn : NonNeg s) : NonNeg (runOp s op) := by
  cases op with
  | txn a hold ty amt dsc c =>
    rcases hsplit : create_transaction s a hold ty amt dsc c with ⟨s', out⟩
    have hrun : runOp s (Op.txn a hold ty amt dsc c) = s' := by simp [runOp, hsplit]
    rw [hrun]
    rcases create_transaction_cases s a hold ty amt dsc c s' out hsplit with h | h | h
    · rw [h.1]; exact hnn
    · obtain ⟨account, -, -, -, -, hs, -⟩ := h
      rw [hs]
      exact hnn
    · obtain ⟨account, -, hamt, h3⟩ := h
      rcases h3 with ⟨-, hbal, hs, -⟩ | ⟨-, hnn2, hs, -⟩
      · rw [hs]
        intro x hx
        obtain ⟨y, hy, hxy⟩ := mem_setBalance hx
        by_cases hyid : y.id = a
        · rw [hxy, if_pos hyid]
          dsimp only
          omega
        · rw [hxy, if_neg hyid]
          exact hnn y hy
      · rw [hs]
        intro x hx
        obtain ⟨y, hy, hxy⟩ := mem_setBalance hx
        by_cases hyid : y.id = a
        · rw [hxy, if_pos hyid]
          dsimp only
          omega
        · rw [hxy, if_neg hyid]
          exact hnn y hy
  | transfer f t hold amt dsc pid =>
    rcases hsplit : create_transfer s f t hold amt dsc pid with ⟨s', out⟩
    have hrun : runOp s (Op.transfer f t hold amt dsc pid) = s' := by simp [runOp, hsplit]
    rw [hrun]
    rcases create_transfer_cases s f t hold amt dsc pid s' out hsplit with h | h | h
    · rw [h.1]; exact hnn
    · obtain ⟨src, -, -, -, hs, -⟩ := h
      rw [hs]
      exact hnn
    · obtain ⟨src, dst, hfs, hfd, hble, hamt, hfeq, hfne, hs, -⟩ := h
      rw [hs]
      intro x hx
      obtain ⟨y, hy, hxy⟩ := mem_setBalance hx
      obtain ⟨z, hz, hyz⟩ := mem_setBalance hy
      have hyzid : y.id = z.id := by
        rw [hyz]
        by_cases hzf : z.id = f <;> simp [hzf]
      by_cases hyt : y.id = t
      · rw [hxy, if_pos hyt]
        dsimp only
        by_cases hft : f = t
        · have h0 := hfeq hft
          simp only [if_pos hft]
          omega
        · have h1 := hfne hft
          simp only [if_neg hft]
          omega
      · rw [hxy, if_neg hyt]
        by_cases hzf : z.id = f
        · rw [hyz, if_pos hzf]
          dsimp only
          by_cases hft : f = t
          · exact absurd (by rw [hyzid, hzf, hft]) hyt
          · have h1 := hfne hft
            omega
        · rw [hyz, if_neg hzf]
          exact hnn z hz

/-- Claim C6: non-negativity — starting from any ledger whose balances are
all non-negative (accounts are created at zero balance), no sequence of
`create_transaction` and `create_transfer` calls ever drives any cached
balance below zero: a debit is only applied when covered, and every write
is re-checked by the `cached_balance_cents >= 0` storage constraint. -/
theorem balances_never_negative (s : LedgerState) (ops : List Op) (hnn : NonNeg s) :
    NonNeg (runOps s ops) := by
  induction ops generalizing s with
  | nil => exact hnn
  | cons op rest ih =>
    have h1 : runOps s (op :: rest) = runOps (runOp s op) rest := by
      simp [runOps, List.foldl_cons]
    rw [h1]
    exact ih (runOp s op) (nonNeg_runOp s op hnn)

/-- Witness for `balances_never_negative`: Scenario 1 followed by an
over-debit and a transfer, all from a zero-balance account. -/
theorem balances_never_negative_witness :
    NonNeg ⟨[⟨1, 7, 0⟩, ⟨2, 8, 0⟩], [], []⟩
    ∧ NonNeg (runOps ⟨[⟨1, 7, 0⟩, ⟨2, 8, 0⟩], [], []⟩
        [Op.txn 1 7 TxnType.credit 10000 none none,
         Op.txn 1 7 TxnType.debit 20000 none none,
         Op.transfer 1 2 7 5000 none 99]) :=
  ⟨by decide, balances_never_negative ⟨[⟨1, 7, 0⟩, ⟨2, 8, 0⟩], [], []⟩
    [Op.txn 1 7 TxnType.credit 10000 none none,
     Op.txn 1 7 TxnType.debit 20000 none none,
     Op.transfer 1 2 7 5000 none 99] (by decide)⟩

end Bank

namespace Bank

theorem setBalance_setBalance_same (l : List Account) (i : Nat) (b b' : Int) :
    setBalance (setBalance l i b) i b' = setBalance l i b' := by
  unfold setBalance
  rw [List.map_map]
  apply List.map_congr_left
  intro a _
  by_cases h : a.id = i <;> simp [Function.comp, h]

/-- `create_transaction` never changes the set (or order) of account ids. -/
theorem create_transaction_accounts_id (s : LedgerState) (a hold : Nat) (ty : TxnType)
    (amt : Int) (dsc : Option String) (c : Option Nat) :
    ((create_transaction s a hold ty amt dsc c).1.accounts).map Account.id
      = s.accounts.map Account.id := by
  rcases hsplit : create_transaction s a hold ty amt dsc c with ⟨s', out⟩
  rcases create_transaction_cases s a hold ty amt dsc c s' out hsplit with h | h | h
  · rw [h.1]
  · obtain ⟨account, -, -, -, -, hs, -⟩ := h
    rw [hs]
  · obtain ⟨account, -, -, h3⟩ := h
    rcases h3 with ⟨-, -, hs, -⟩ | ⟨-, -, hs, -⟩ <;>
      · rw [hs]
        exact setBalance_map_id _ _ _

/-- `create_transfer` never changes the set (or order) of account ids. -/
theorem create_transfer_accounts_id (s : LedgerState) (f t hold : Nat) (amt : Int)
    (dsc : Option String) (pid : Nat) :
    ((create_transfer s f t hold amt dsc pid).1.accounts).map Account.id
      = s.accounts.map Account.id := by
  rcases hsplit : create_transfer s f t hold amt dsc pid with ⟨s', out⟩
  rcases create_transfer_cases s f t hold amt dsc pid s' out hsplit with h | h | h
  · rw [h.1]
  · obtain ⟨src, -, -, -, hs, -⟩ := h
    rw [hs]
  · obtain ⟨src, dst, -, -, -, -, -, -, hs, -⟩ := h
    rw [hs]
    dsimp only
    rw [setBalance_map_id, setBalance_map_id]

/-- One `create_transfer` call — successful, declined or failed — leaves
the sum of all cached balances unchanged. -/
theorem totalBalance_create_transfer (s : LedgerState) (f t hold : Nat) (amt : Int)
    (dsc : Option String) (pid : Nat) (hwf : WFAccounts s) :
    totalBalance (create_transfer s f t hold amt dsc pid).1 = totalBalance s := by
  rcases hsplit : create_transfer s f t hold amt dsc pid with ⟨s', out⟩
  rcases create_transfer_cases s f t hold amt dsc pid s' out hsplit with h | h | h
  · rw [h.1]
  · obtain ⟨src, -, -, -, hs, -⟩ := h
    rw [hs]
    rfl
  · obtain ⟨src, dst, hfs, hfd, hble, hamt, hfeq, hfne, hs, -⟩ := h
    rw [hs]
    unfold totalBalance
    dsimp only
    have hfind_f : s.accounts.find? (fun x => decide (x.id = f)) = some src := hfs
    by_cases hft : f = t
    · subst hft
      rw [setBalance_setBalance_same]
      rw [sum_setBalance hwf hfind_f]
      simp only [eq_self_iff_true, if_true]
      ring
    · have hfind_t : s.accounts.find? (fun x => decide (x.id = t)) = some dst := hfd
      have hdid : dst.id = t := (mem_id_of_findAccount hfd).2
      have hnd2 : ((setBalance s.accounts f (src.cached_balance_cents - amt)).map
          Account.id).Nodup := by
        rw [setBalance_map_id]
        exact hwf
      have hfind_t2 : (setBalance s.accounts f (src.cached_balance_cents - amt)).find?
          (fun x => decide (x.id = t)) = some dst := by
        rw [find?_setBalance, hfind_t]
        simp [hdid, Ne.symm hft]
      rw [sum_setBalance hnd2 hfind_t2, sum_setBalance hwf hfind_f]
      simp only [if_neg hft]
      ring

/-- Claim C7: conservation — for any set of accounts with unique ids and
any sequence of `create_transfer` calls in which every call succeeds (no
single-account credits or debits), the sum of all cached balances after
the sequence equals the sum before it. -/
theorem transfers_conserve_total (s : LedgerState) (reqs : List TransferArgs)
    (hwf : WFAccounts s) (hok : runTransfersAllOk s reqs = true) :
    totalBalance (runTransfers s reqs) = totalBalance s := by
  induction reqs generalizing s with
  | nil => rfl
  | cons r rest ih =>
    have hstep : runTransfers s (r :: rest)
        = runTransfers (create_transfer s r.from_account_id r.to_account_id
            r.account_holder_id r.amount_cents r.description r.transfer_pair_id).1 rest := by
      simp [runTransfers, List.foldl_cons]
    have hwf2 : WFAccounts (create_transfer s r.from_account_id r.to_account_id
        r.account_holder_id r.amount_cents r.description r.transfer_pair_id).1 := by
      unfold WFAccounts
      rw [create_transfer_accounts_id]
      exact hwf
    have hok2 : runTransfersAllOk (create_transfer s r.from_account_id r.to_account_id
        r.account_holder_id r.amount_cents r.description r.transfer_pair_id).1 rest = true := by
      unfold runTransfersAllOk at hok
      simp only [Bool.and_eq_true] at hok
      exact hok.2
    rw [hstep, ih _ hwf2 hok2,
      totalBalance_create_transfer s r.from_account_id r.to_account_id r.account_holder_id
        r.amount_cents r.description r.transfer_pair_id hwf]

/-- Witness for `transfers_conserve_total`: two successful transfers
shuffling 10000 cents around three accounts keep the total at 10000. -/
theorem transfers_conserve_total_witness :
    WFAccounts ⟨[⟨1, 7, 10000⟩, ⟨2, 8, 0⟩, ⟨3, 9, 0⟩], [], []⟩
    ∧ runTransfersAllOk ⟨[⟨1, 7, 10000⟩, ⟨2, 8, 0⟩, ⟨3, 9, 0⟩], [], []⟩
        [⟨1, 2, 7, 4000, none, 50⟩, ⟨2, 3, 8, 1500, none, 51⟩] = true
    ∧ totalBalance (runTransfers ⟨[⟨1, 7, 10000⟩, ⟨2, 8, 0⟩, ⟨3, 9, 0⟩], [], []⟩
        [⟨1, 2, 7, 4000, none, 50⟩, ⟨2, 3, 8, 1500, none, 51⟩])
      = totalBalance ⟨[⟨1, 7, 10000⟩, ⟨2, 8, 0⟩, ⟨3, 9, 0⟩], [], []⟩ :=
  ⟨by decide, by decide,
    transfers_conserve_total ⟨[⟨1, 7, 10000⟩, ⟨2, 8, 0⟩, ⟨3, 9, 0⟩], [], []⟩
      [⟨1, 2, 7, 4000, none, 50⟩, ⟨2, 3, 8, 1500, none, 51⟩] (by decide) (by decide)⟩

end Bank

namespace Bank

/-- Balance consistency is preserved by one core operation. -/
theorem balInv_runOp (s : LedgerState) (op : Op) (hinv : BalInv s) :
    BalInv (runOp s op) := by
  cases op with
  | txn a hold ty amt dsc c =>
    rcases hsplit : create_transaction s a hold ty amt dsc c with ⟨s', out⟩
    have hrun : runOp s (Op.txn a hold ty amt dsc c) = s' := by simp [runOp, hsplit]
    rw [hrun]
    rcases create_transaction_cases s a hold ty amt dsc c s' out hsplit with h | h | h
    · rw [h.1]; exact hinv
    · obtain ⟨account, hfind, -, -, -, hs, -⟩ := h
      rw [hs]
      intro x hx
      have hx' : x ∈ s.accounts := hx
      have hc := compute_balance_append s
        ({ s with transactions := s.transactions ++ [declinedDebitRow a amt dsc c] })
        (declinedDebitRow a amt dsc c) x.id rfl
      rw [hc]
      simp [declinedDebitRow]
      exact hinv x hx'
    · obtain ⟨account, hfind, hamt, h3⟩ := h
      have hamem := (mem_id_of_findAccount hfind).1
      have haid := (mem_id_of_findAccount hfind).2
      have hacc : account.cached_balance_cents = compute_balance_from_transactions s a := by
        have h5 := hinv account hamem
        rw [haid] at h5
        exact h5
      rcases h3 with ⟨hty, hbal, hs, -⟩ | ⟨hty, hnn2, hs, -⟩
      · rw [hs]
        intro x hx
        obtain ⟨y, hy, hxy⟩ := mem_setBalance hx
        have hxid : x.id = y.id := by
          rw [hxy]
          by_cases hyid : y.id = a <;> simp [hyid]
        have hc := compute_balance_append s
          ({ s with accounts := setBalance s.accounts a (account.cached_balance_cents - amt),
                    transactions := s.transactions ++ [debitRow a amt dsc c] })
          (debitRow a amt dsc c) x.id rfl
        rw [hc]
        by_cases hyid : y.id = a
        · have hxbal : x.cached_balance_cents = account.cached_balance_cents - amt := by
            rw [hxy, if_pos hyid]
          have hxid2 : x.id = a := by rw [hxid, hyid]
          rw [hxbal, hxid2]
          simp [debitRow]
          rw [hacc]
        · have hxy2 : x = y := by rw [hxy, if_neg hyid]
          rw [hxy2] at hc ⊢
          simp [debitRow, Ne.symm hyid]
          exact hinv y hy
      · rw [hs]
        intro x hx
        obtain ⟨y, hy, hxy⟩ := mem_setBalance hx
        have hxid : x.id = y.id := by
          rw [hxy]
          by_cases hyid : y.id = a <;> simp [hyid]
        have hc := compute_balance_append s
          ({ s with accounts := setBalance s.accounts a (account.cached_balance_cents + amt),
                    transactions := s.transactions ++ [creditRow a amt dsc] })
          (creditRow a amt dsc) x.id rfl
        rw [hc]
        by_cases hyid : y.id = a
        · have hxbal : x.cached_balance_cents = account.cached_balance_cents + amt := by
            rw [hxy, if_pos hyid]
          have hxid2 : x.id = a := by rw [hxid, hyid]
          rw [hxbal, hxid2]
          simp [creditRow]
          rw [hacc]
        · have hxy2 : x = y := by rw [hxy, if_neg hyid]
          rw [hxy2] at hc ⊢
          simp [creditRow, Ne.symm hyid]
          exact hinv y hy
  | transfer f t hold amt dsc pid =>
    rcases hsplit : create_transfer s f t hold amt dsc pid with ⟨s', out⟩
    have hrun : runOp s (Op.transfer f t hold amt dsc pid) = s' := by simp [runOp, hsplit]
    rw [hrun]
    rcases create_transfer_cases s f t hold amt dsc pid s' out hsplit with h | h | h
    · rw [h.1]; exact hinv
    · obtain ⟨src, hfs, -, -, hs, -⟩ := h
      rw [hs]
      intro x hx
      have hx' : x ∈ s.accounts := hx
      have hc := compute_balance_append s
        ({ s with transactions := s.transactions ++ [transferDeclinedRow f amt dsc pid] })
        (transferDeclinedRow f amt dsc pid) x.id rfl
      rw [hc]
      simp [transferDeclinedRow]
      exact hinv x hx'
    · obtain ⟨src, dst, hfs, hfd, hble, hamt, hfeq, hfne, hs, -⟩ := h
      have hsmem := (mem_id_of_findAccount hfs).1
      have hsid := (mem_id_of_findAccount hfs).2
      have hdmem := (mem_id_of_findAccount hfd).1
      have hdid := (mem_id_of_findAccount hfd).2
      have hsrcc : src.cached_balance_cents = compute_balance_from_transactions s f := by
        have h5 := hinv src hsmem
        rw [hsid] at h5
        exact h5
      have hdstc : dst.cached_balance_cents = compute_balance_from_transactions s t := by
        have h5 := hinv dst hdmem
        rw [hdid] at h5
        exact h5
      rw [hs]
      have hcc : ∀ j, compute_balance_from_transactions
          ({ s with
               accounts := setBalance (setBalance s.accounts f (src.cached_balance_cents - amt)) t
                 ((if f = t then src.cached_balance_cents - amt
                   else dst.cached_balance_cents) + amt),
               transactions := s.transactions
                 ++ [transferDebitLeg f amt dsc pid, transferCreditLeg t amt dsc pid] }) j
          = compute_balance_from_transactions s j
            + (if t = j then amt else 0) - (if f = j then amt else 0) := by
        intro j
        have h1 := compute_balance_append s
          ({ s with transactions := s.transactions ++ [transferDebitLeg f amt dsc pid] })
          (transferDebitLeg f amt dsc pid) j rfl
        have h2 := compute_balance_append
          ({ s with transactions := s.transactions ++ [transferDebitLeg f amt dsc pid] })
          ({ s with
               accounts := setBalance (setBalance s.accounts f (src.cached_balance_cents - amt)) t
                 ((if f = t then src.cached_balance_cents - amt
                   else dst.cached_balance_cents) + amt),
               transactions := s.transactions
                 ++ [transferDebitLeg f amt dsc pid, transferCreditLeg t amt dsc pid] })
          (transferCreditLeg t amt dsc pid) j (by simp)
        rw [h2, h1]
        simp [transferDebitLeg, transferCreditLeg]
        by_cases hfj : f = j <;> by_cases htj : t = j <;> simp [hfj, htj]
      intro x hx
      obtain ⟨y, hy, hxy⟩ := mem_setBalance hx
      obtain ⟨z, hz, hyz⟩ := mem_setBalance hy
      have hyzid : y.id = z.id := by
        rw [hyz]
        by_cases hzf : z.id = f <;> simp [hzf]
      have hxid : x.id = y.id := by
        rw [hxy]
        by_cases hyt : y.id = t <;> simp [hyt]
      rw [hcc x.id]
      by_cases hyt : y.id = t
      · have hxbal : x.cached_balance_cents
            = (if f = t then src.cached_balance_cents - amt
               else dst.cached_balance_cents) + amt := by
          rw [hxy, if_pos hyt]
        by_cases hft : f = t
        · have hxid2 : x.id = f := by rw [hxid, hyt, ← hft]
          rw [hxbal, hxid2]
          simp only [if_pos hft]
          simp [hft]
          rw [hft] at hsrcc
          linarith [hsrcc]
        · have hxid2 : x.id = t := by rw [hxid, hyt]
          rw [hxbal, hxid2]
          simp only [if_neg hft]
          simp [hft]
          linarith [hdstc]
      · have hxy2 : x = y := by rw [hxy, if_neg hyt]
        by_cases hzf : z.id = f
        · have hft : f ≠ t := by
            intro hh
            exact hyt (by rw [hyzid, hzf, hh])
          have hybal : y.cached_balance_cents = src.cached_balance_cents - amt := by
            rw [hyz, if_pos hzf]
          have hyid2 : y.id = f := by rw [hyzid, hzf]
          have htf : ¬ (t = f) := fun hh => hft hh.symm
          rw [hxy2, hybal, hyid2]
          simp [htf]
          linarith [hsrcc]
        · have hxz : x = z := by rw [hxy2, hyz, if_neg hzf]
          have hzt : z.id ≠ t := by
            rw [← hyzid]
            exact hyt
          rw [hxz]
          simp [Ne.symm hzt, Ne.symm hzf]
          exact hinv z hz

/-- Claim C5: balance consistency — from any ledger whose cached balances
agree with the balances recomputed from approved transactions, after any
sequence of `create_transaction` and `create_transfer` calls (approved or
declined) every account's cached balance still equals the recomputed
balance of its id: approved credits to the account minus approved debits
from it, declined rows never contributing. -/
theorem cached_matches_computed (s : LedgerState) (ops : List Op)
    (hinv : BalInv s) : BalInv (runOps s ops) := by
  induction ops generalizing s with
  | nil => exact hinv
  | cons op rest ih =>
    have h1 : runOps s (op :: rest) = runOps (runOp s op) rest := by
      simp [runOps, List.foldl_cons]
    rw [h1]
    exact ih _ (balInv_runOp s op hinv)

/-- Witness for `cached_matches_computed`: a credit, an over-debit
(declined), a covered debit and a transfer, from an empty ledger. -/
theorem cached_matches_computed_witness :
    BalInv ⟨[⟨1, 7, 0⟩, ⟨2, 8, 0⟩], [], []⟩
    ∧ BalInv (runOps ⟨[⟨1, 7, 0⟩, ⟨2, 8, 0⟩], [], []⟩
        [Op.txn 1 7 TxnType.credit 10000 none none,
         Op.txn 1 7 TxnType.debit 20000 none none,
         Op.txn 1 7 TxnType.debit 2500 none none,
         Op.transfer 1 2 7 5000 none 99]) :=
  ⟨by decide,
    cached_matches_computed ⟨[⟨1, 7, 0⟩, ⟨2, 8, 0⟩], [], []⟩
      [Op.txn 1 7 TxnType.credit 10000 none none,
       Op.txn 1 7 TxnType.debit 20000 none none,
       Op.txn 1 7 TxnType.debit 2500 none none,
       Op.transfer 1 2 7 5000 none 99] (by decide)⟩

end Bank
